import Mathlib

/-!
Verification development for the IAboy Session Control Core specification
and the repository's frontend UI code (chat panel and game panel).

The Session Control Core (Session Manager, Control Arbiter, Action Codec,
Reward Engine, Context Store) does not exist under the repository's source
tree; the spec itself notes it "does not yet exist in source and would be
implemented fresh".  Those components are therefore modelled from the
spec's words, each marked `Modelled from the spec:` in its doc comment.
The chat and game panel definitions are embeddings of
frontend/src/ui/chat.js and frontend/src/ui/app.js plus the game panel
module bundled with it.
-/

namespace IAboy

/- ===================== Action Codec (spec section 4.3) ===================== -/

/-- Modelled from the spec: an Action is "a canonical set of simultaneous
button-press flags valid for the target emulator/controller mapping".
The controller vocabulary is the standard retro pad. -/
structure Action where
  up : Bool
  down : Bool
  left : Bool
  right : Bool
  a : Bool
  b : Bool
  start : Bool
  select : Bool
deriving DecidableEq, Repr

instance : Fintype Action :=
  Fintype.ofSurjective
    (fun t : Bool × Bool × Bool × Bool × Bool × Bool × Bool × Bool =>
      ⟨t.1, t.2.1, t.2.2.1, t.2.2.2.1, t.2.2.2.2.1, t.2.2.2.2.2.1,
       t.2.2.2.2.2.2.1, t.2.2.2.2.2.2.2⟩)
    (fun act => ⟨⟨act.up, act.down, act.left, act.right, act.a, act.b,
       act.start, act.select⟩, rfl⟩)

/-- The action with no button pressed (the configured no-op default). -/
def emptyAction : Action :=
  ⟨false, false, false, false, false, false, false, false⟩

/-- Pointwise disjunction of two press sets: combining all recognized
tokens into one simultaneous-press Action. -/
def actionUnion (x y : Action) : Action :=
  ⟨x.up || y.up, x.down || y.down, x.left || y.left, x.right || y.right,
   x.a || y.a, x.b || y.b, x.start || y.start, x.select || y.select⟩

/-- Canonical display tokens for the pressed buttons of an action. -/
def buttonTokens (act : Action) : List String :=
  (if act.up then ["up"] else []) ++
  (if act.down then ["down"] else []) ++
  (if act.left then ["left"] else []) ++
  (if act.right then ["right"] else []) ++
  (if act.a then ["a"] else []) ++
  (if act.b then ["b"] else []) ++
  (if act.start then ["start"] else []) ++
  (if act.select then ["select"] else [])

/-- Joins display tokens with single spaces. -/
def joinTokens : List String → String
  | [] => ""
  | [t] => t
  | t :: ts => t ++ " " ++ joinTokens ts

/-- Modelled from the spec: `Encode(Action) -> displayString`, the inverse
used for UI/log presentation, total on the closed vocabulary.  The empty
press set displays as the canonical no-op token. -/
def Encode (act : Action) : String :=
  match buttonTokens act with
  | [] => "noop"
  | ts => joinTokens ts

/-- Recognized control tokens: canonical button names and common synonyms,
each mapped to the press set it contributes. -/
def tokenAction (tok : String) : Option Action :=
  if tok = "up" then some { emptyAction with up := true }
  else if tok = "down" then some { emptyAction with down := true }
  else if tok = "left" then some { emptyAction with left := true }
  else if tok = "right" then some { emptyAction with right := true }
  else if tok = "a" then some { emptyAction with a := true }
  else if tok = "b" then some { emptyAction with b := true }
  else if tok = "start" then some { emptyAction with start := true }
  else if tok = "select" then some { emptyAction with select := true }
  else if tok = "noop" then some emptyAction
  else none

/-- Accumulating word splitter over the character stream: letters are
lower-cased and gathered into the current word, any non-letter character
ends the current word. -/
def splitWords : List Char → List Char → List String
  | [], acc => if acc.isEmpty then [] else [String.mk acc.reverse]
  | c :: cs, acc =>
    if c.isAlpha then splitWords cs (c.toLower :: acc)
    else if acc.isEmpty then splitWords cs []
    else String.mk acc.reverse :: splitWords cs []

/-- Normalize case and whitespace and cut the raw text into candidate
words: lower-case the letters and split on every non-letter character. -/
def tokenize (s : String) : List String :=
  splitWords s.data []

/-- Modelled from the spec: `Decode(rawText) -> Action` scans the
normalized text for recognized control tokens and combines all of them
into one simultaneous-press Action; with zero recognized tokens it fails
(`UnparseableAction`, rendered here as `none`). -/
def Decode (s : String) : Option Action :=
  match (tokenize s).filterMap tokenAction with
  | [] => none
  | ts => some (ts.foldl actionUnion emptyAction)

/- ============ Session Manager and Control Arbiter (spec sections 4.1, 4.2) ============ -/

/-- Modelled from the spec: the four control modes of a session. -/
inductive Mode
  | humanOnly
  | aiOnly
  | coopTurn
  | coopBlend
deriving DecidableEq, Repr

/-- Modelled from the spec: the authority whose action is applied for a step. -/
inductive Actor
  | human
  | ai
deriving DecidableEq, Repr

/-- Modelled from the spec: the error taxonomy of section 7 that is surfaced
to callers of the Session Manager. -/
inductive SMError
  | UnknownGame
  | EmulatorInitFailed
  | SessionNotFound
  | SessionTerminated
  | MissingHumanAction
  | PersistenceFailed
deriving DecidableEq, Repr

/-- Modelled from the spec: a Session record with game identifier, control
mode, step counter and lifecycle state (terminal flag set by a prior
observation). -/
structure Session where
  gameId : String
  mode : Mode
  stepCount : Nat
  terminated : Bool
deriving DecidableEq, Repr

/-- Modelled from the spec: `CreateSession(gameId, mode) -> SessionId`
validates gameId against the catalog of available games and fails with
`UnknownGame` if the gameId is not in the catalog; the fresh session
starts with step counter zero and is not terminated. -/
def createSession (catalog : List String) (gameId : String) (mode : Mode) :
    Except SMError Session :=
  if gameId ∈ catalog then .ok ⟨gameId, mode, 0, false⟩
  else .error .UnknownGame

/-- Modelled from the spec: configuration of the Control Arbiter, holding
the configured default action used by the AI fallback policy. -/
structure AIConfig where
  defaultAction : Action
deriving Repr

/-- Modelled from the spec: the result of a step, carrying the action taken,
the acting actor, the `ai_fallback` annotation and the `overridden_human`
annotation for `coop-blend` conflicts. -/
structure StepResult where
  actionTaken : Action
  actor : Actor
  aiFallback : Bool
  overriddenHuman : Bool
deriving DecidableEq, Repr

/-- Modelled from the spec: the AI decision procedure.  Each oracle attempt
is `some rawText` on success and `none` on timeout or transport failure;
the procedure retries once after a failed first attempt, and on the second
failure — or on an `UnparseableAction` reply — falls back to the configured
default action tagged `ai_fallback=true`. -/
def aiDecision (cfg : AIConfig) (firstTry sndTry : Option String) : Action × Bool :=
  match firstTry with
  | some txt =>
    match Decode txt with
    | some act => (act, false)
    | none => (cfg.defaultAction, true)
  | none =>
    match sndTry with
    | some txt =>
      match Decode txt with
      | some act => (act, false)
      | none => (cfg.defaultAction, true)
    | none => (cfg.defaultAction, true)

/-- Modelled from the spec: whether the per-step decision algorithm consults
the AI oracle for this session, human input and opt-out flag. -/
def consultsAI (s : Session) (optOut : Bool) : Bool :=
  match s.mode with
  | .humanOnly => false
  | .aiOnly => true
  | .coopTurn => !(s.stepCount % 2 == 0) || optOut
  | .coopBlend => true

/-- Modelled from the spec: `Step` on one session.  Fails `SessionTerminated`
when the terminal flag was already set; otherwise the Control Arbiter
resolves actor and action by control mode (section 4.2): `human-only`
requires the human action, `ai-only` uses the AI decision, `coop-turn`
alternates by step-counter parity with an explicit human opt-out giving the
step to the AI, and `coop-blend` uses the AI action, annotated
`overridden_human` when a conflicting human action was supplied.  Every
successful step advances the step counter by exactly one. -/
def stepSession (cfg : AIConfig) (s : Session) (humanAct : Option Action)
    (optOut : Bool) (firstTry sndTry : Option String) :
    Except SMError (StepResult × Session) :=
  if s.terminated then .error .SessionTerminated
  else
    let advance := fun (r : StepResult) => (r, { s with stepCount := s.stepCount + 1 })
    match s.mode with
    | .humanOnly =>
      match humanAct with
      | none => .error .MissingHumanAction
      | some act => .ok (advance ⟨act, .human, false, false⟩)
    | .aiOnly =>
      let (act, fb) := aiDecision cfg firstTry sndTry
      .ok (advance ⟨act, .ai, fb, false⟩)
    | .coopTurn =>
      if s.stepCount % 2 == 0 && !optOut then
        match humanAct with
        | none => .error .MissingHumanAction
        | some act => .ok (advance ⟨act, .human, false, false⟩)
      else
        let (act, fb) := aiDecision cfg firstTry sndTry
        .ok (advance ⟨act, .ai, fb, false⟩)
    | .coopBlend =>
      let (act, fb) := aiDecision cfg firstTry sndTry
      match humanAct with
      | none => .ok (advance ⟨act, .ai, fb, false⟩)
      | some h =>
        if h = act then .ok (advance ⟨act, .ai, fb, false⟩)
        else .ok (advance ⟨act, .ai, fb, true⟩)

/-- The structured human action RIGHT used by the spec scenario. -/
def rightAction : Action := { emptyAction with right := true }

/- ===================== Reward Engine (spec section 4.4) ===================== -/

/-- Modelled from the spec: an Observation is a compact structured snapshot
sufficient for reward computation — score, lives, terminal flag and a
level-complete event flag. -/
structure Observation where
  score : Int
  lives : Nat
  terminal : Bool
  levelComplete : Bool
deriving DecidableEq, Repr

/-- Modelled from the spec: reward weighting is an explicit configuration
structure, not hardcoded per game. -/
structure RewardConfig where
  scoreWeight : Int
  lifeLossPenalty : Int
  levelCompleteBonus : Int
deriving DecidableEq, Repr

/-- Modelled from the spec: a RewardEvent carries the scalar reward and the
tagged list of discrete notable events derived from the observation pair. -/
structure RewardEvent where
  reward : Int
  events : List String
deriving DecidableEq, Repr

/-- Modelled from the spec: `Score(prev, curr) -> RewardEvent`, a pure
function of the two observations — positive reward proportional to score
delta, a fixed negative reward on life loss, a large positive terminal
bonus on level completion, zero otherwise. -/
def Score (cfg : RewardConfig) (prev curr : Observation) : RewardEvent :=
  let scoreDelta := curr.score - prev.score
  let lifeLost := curr.lives < prev.lives
  let rw := cfg.scoreWeight * scoreDelta +
    (if lifeLost then cfg.lifeLossPenalty else 0) +
    (if curr.levelComplete then cfg.levelCompleteBonus else 0)
  let evts :=
    (if scoreDelta > 0 then ["score_increased"] else []) ++
    (if lifeLost then ["life_lost"] else []) ++
    (if curr.levelComplete then ["level_complete"] else [])
  ⟨rw, evts⟩

/- ===================== Context Store (spec section 4.5) ===================== -/

/-- Modelled from the spec: the role of a ConversationTurn. -/
inductive Role
  | user
  | assistant
  | system
deriving DecidableEq, Repr

/-- Modelled from the spec: a ConversationTurn with role and text content;
`system` turns are the state-grounding turns. -/
structure ConversationTurn where
  role : Role
  content : String
deriving DecidableEq, Repr

/-- A turn is a system grounding turn when its role is `system`. -/
def isGrounding (t : ConversationTurn) : Bool := t.role == Role.system

/-- Modelled from the spec: the per-session maximum stored-turn count and
the approximate content-size budget of the Context Store. -/
structure StoreConfig where
  maxTurns : Nat
  sizeBudget : Nat
deriving Repr

/-- Approximate content size of one turn. -/
def turnSize (t : ConversationTurn) : Nat := t.content.length

/-- Total stored content size of a turn log. -/
def totalSize (ts : List ConversationTurn) : Nat := (ts.map turnSize).sum

/-- The store exceeds its configured budget when it holds more turns than
`maxTurns` or more content than `sizeBudget`. -/
def overBudget (cfg : StoreConfig) (ts : List ConversationTurn) : Prop :=
  cfg.maxTurns < ts.length ∨ cfg.sizeBudget < totalSize ts

instance (cfg : StoreConfig) (ts : List ConversationTurn) :
    Decidable (overBudget cfg ts) := by
  unfold overBudget; infer_instance

/-- Removes the oldest non-grounding turn from an oldest-first log, when one
exists. -/
def removeFirstNonGrounding : List ConversationTurn → Option (List ConversationTurn)
  | [] => none
  | t :: ts =>
    if isGrounding t then (removeFirstNonGrounding ts).map (t :: ·)
    else some ts

/-- One eviction: remove the oldest non-grounding turn; when every stored
turn is a grounding turn, remove the oldest one, but never the sole
remaining grounding turn (the most recent one). -/
def evictOnce (ts : List ConversationTurn) : Option (List ConversationTurn) :=
  match removeFirstNonGrounding ts with
  | some ts2 => some ts2
  | none =>
    match ts with
    | [] => none
    | [_] => none
    | _ :: rest => some rest

/-- Fuelled eviction loop: evict while the store is over budget and an
evictable turn exists. -/
def evictFuel (cfg : StoreConfig) : Nat → List ConversationTurn → List ConversationTurn
  | 0, ts => ts
  | fuel + 1, ts =>
    if overBudget cfg ts then
      match evictOnce ts with
      | some ts2 => evictFuel cfg fuel ts2
      | none => ts
    else ts

/-- Eviction until the store is within budget or only the most recent
grounding turn remains. -/
def evict (cfg : StoreConfig) (ts : List ConversationTurn) : List ConversationTurn :=
  evictFuel cfg ts.length ts

/-- Modelled from the spec: `Append(sessionId, turn)` appends the turn at
the newest end and then enforces the turn-count and content-size budget by
evicting oldest non-grounding turns first. -/
def appendTurn (cfg : StoreConfig) (ts : List ConversationTurn)
    (t : ConversationTurn) : List ConversationTurn :=
  evict cfg (ts ++ [t])

/-- The most recent system grounding turn of an oldest-first log. -/
def lastGrounding (ts : List ConversationTurn) : Option ConversationTurn :=
  (ts.filter isGrounding).getLast?

/- ============== Chat panel (frontend/src/ui/chat.js) ============== -/

/-- One message of the chat conversation, as posted to the backend:
a role (`"user"` or `"assistant"`) and the text content. -/
structure ChatMsg where
  role : String
  content : String
deriving DecidableEq, Repr

/-- The mutable state captured by the chat panel closure: the `conversation`
array, the bound `sessionId`, and the rendered messages list (DOM children
of `messagesList`, as icon-and-text pairs). -/
structure ChatState where
  conversation : List ChatMsg
  sessionId : Option String
  rendered : List (String × String)
deriving DecidableEq, Repr

/-- Embedding of `section.updateSession` (chat.js): stores the new session
id, resets `conversation` to the empty array, clears the rendered messages
and renders one informational message. -/
def updateSession (id : String) (st : ChatState) : ChatState :=
  { st with
    sessionId := some id
    conversation := []
    rendered := [("info", "La sesión está lista para conversar.")] }

/-- Embedding of JavaScript `String.prototype.trim`: drop leading and
trailing whitespace characters. -/
def trimChars (s : String) : String :=
  String.mk ((s.data.dropWhile Char.isWhitespace).reverse.dropWhile
    Char.isWhitespace).reverse

/-- Outcome of the POST to `/api/sessions/{id}/chat`: a successful response
carrying the reply text (`response.data.reply ?? ""`), or a request error
with a message. -/
inductive ChatOutcome
  | success (reply : String)
  | failure (errMsg : String)
deriving DecidableEq, Repr

/-- Result of one form submission: the updated panel state and the issued
HTTP request, `none` when no request was sent; a request carries the
session id of its URL and the `messages` payload. -/
structure SubmitResult where
  state : ChatState
  request : Option (String × List ChatMsg)
deriving DecidableEq, Repr

/-- Embedding of the form submit handler (chat.js): with empty trimmed text
or no session id it returns early; otherwise the trimmed user message is
appended to the conversation and rendered, the conversation including it is
posted, and on success the assistant reply is appended and rendered while
on failure only an error line is rendered. -/
def submitChat (st : ChatState) (text : String) (outcome : ChatOutcome) :
    SubmitResult :=
  if trimChars text = "" then ⟨st, none⟩
  else
    match st.sessionId with
    | none => ⟨st, none⟩
    | some sid =>
      let userMsg : ChatMsg := ⟨"user", trimChars text⟩
      let conv1 := st.conversation ++ [userMsg]
      let rendered1 := st.rendered ++ [("user", trimChars text)]
      match outcome with
      | .success reply =>
        ⟨⟨conv1 ++ [⟨"assistant", reply⟩], some sid,
          rendered1 ++ [("assistant", reply)]⟩, some (sid, conv1)⟩
      | .failure errMsg =>
        ⟨⟨conv1, some sid,
          rendered1 ++ [("warn", "Error al contactar a Gemma: " ++ errMsg)]⟩,
         some (sid, conv1)⟩

/- ============== Game panel (frontend/src/ui/game.js bundle) ============== -/

/-- The mutable state captured by the game panel closure: the bound
`sessionId` and the `useAi` flag driven by the AI toggle. -/
structure GamePanelState where
  sessionId : Option String
  useAi : Bool
deriving DecidableEq, Repr

/-- Embedding of the AI toggle change listener: stores the checkbox state
in `useAi`. -/
def aiToggleChange (checked : Bool) (st : GamePanelState) : GamePanelState :=
  { st with useAi := checked }

/-- Body of the POST to `/api/sessions` issued by the start button. -/
structure SessionRequest where
  game_id : String
  mode : String
deriving DecidableEq, Repr

/-- Body of the POST to `/api/sessions/{id}/step` issued by the step
button. -/
structure StepRequest where
  use_ai : Bool
deriving DecidableEq, Repr

/-- Embedding of the start button click handler: with an empty select value
it returns early, otherwise it posts the selected game id with the literal
mode string "coop". -/
def startClick (st : GamePanelState) (selectValue : String) :
    Option SessionRequest :=
  if selectValue = "" then none
  else some ⟨selectValue, "coop"⟩

/-- Embedding of the step button click handler: with no active session it
returns early, otherwise it posts the current `useAi` flag as `use_ai`. -/
def stepClick (st : GamePanelState) : Option StepRequest :=
  match st.sessionId with
  | none => none
  | some _ => some ⟨st.useAi⟩

/- ===================== Theorems ===================== -/

example : Decode "press the a button and also jump with b" =
    some { emptyAction with a := true, b := true } := by decide

example : Decode (Encode emptyAction) = some emptyAction := by decide

/- Context Store helper lemmas. -/

theorem rfng_length {ts ts2 : List ConversationTurn}
    (h : removeFirstNonGrounding ts = some ts2) : ts2.length + 1 = ts.length := by
  induction ts generalizing ts2 with
  | nil => simp [removeFirstNonGrounding] at h
  | cons t rest ih =>
    by_cases hg : isGrounding t
    · simp only [removeFirstNonGrounding, hg, if_pos, Option.map_eq_some'] at h
      obtain ⟨ts3, h3, rfl⟩ := h
      have := ih h3
      simp only [List.length_cons]
      omega
    · simp only [removeFirstNonGrounding, hg, if_neg, Option.some.injEq,
        Bool.false_eq_true, if_false] at h
      subst h
      simp

theorem rfng_mem {ts ts2 : List ConversationTurn}
    (h : removeFirstNonGrounding ts = some ts2) :
    ∀ x ∈ ts2, x ∈ ts := by
  induction ts generalizing ts2 with
  | nil => simp [removeFirstNonGrounding] at h
  | cons t rest ih =>
    by_cases hg : isGrounding t
    · simp only [removeFirstNonGrounding, hg, if_pos, Option.map_eq_some'] at h
      obtain ⟨ts3, h3, rfl⟩ := h
      intro x hx
      rcases List.mem_cons.mp hx with hx | hx
      · exact hx ▸ List.mem_cons_self t rest
      · exact List.mem_cons_of_mem t (ih h3 x hx)
    · simp only [removeFirstNonGrounding, hg, Bool.false_eq_true, if_false,
        Option.some.injEq] at h
      subst h
      exact fun x hx => List.mem_cons_of_mem t hx

theorem rfng_filter {ts ts2 : List ConversationTurn}
    (h : removeFirstNonGrounding ts = some ts2) :
    ts2.filter isGrounding = ts.filter isGrounding := by
  induction ts generalizing ts2 with
  | nil => simp [removeFirstNonGrounding] at h
  | cons t rest ih =>
    by_cases hg : isGrounding t
    · simp only [removeFirstNonGrounding, hg, if_pos, Option.map_eq_some'] at h
      obtain ⟨ts3, h3, rfl⟩ := h
      simp [List.filter_cons, hg, ih h3]
    · simp only [removeFirstNonGrounding, hg, Bool.false_eq_true, if_false,
        Option.some.injEq] at h
      subst h
      simp [List.filter_cons, hg]

theorem rfng_none {ts : List ConversationTurn}
    (h : removeFirstNonGrounding ts = none) :
    ∀ t ∈ ts, isGrounding t = true := by
  induction ts with
  | nil => simp
  | cons t rest ih =>
    by_cases hg : isGrounding t
    · simp only [removeFirstNonGrounding, hg, if_pos, Option.map_eq_none'] at h
      intro x hx
      rcases List.mem_cons.mp hx with hx | hx
      · exact hx ▸ hg
      · exact ih h x hx
    · simp [removeFirstNonGrounding, hg] at h

theorem evictOnce_length {ts ts2 : List ConversationTurn}
    (h : evictOnce ts = some ts2) : ts2.length < ts.length := by
  unfold evictOnce at h
  cases hr : removeFirstNonGrounding ts with
  | some ts3 =>
    rw [hr] at h
    cases h
    have := rfng_length hr
    omega
  | none =>
    rw [hr] at h
    match ts, h with
    | t :: t2 :: rest, h =>
      cases h
      simp

theorem evictOnce_mem {ts ts2 : List ConversationTurn}
    (h : evictOnce ts = some ts2) : ∀ x ∈ ts2, x ∈ ts := by
  unfold evictOnce at h
  cases hr : removeFirstNonGrounding ts with
  | some ts3 =>
    rw [hr] at h
    cases h
    exact rfng_mem hr
  | none =>
    rw [hr] at h
    match ts, h with
    | t :: t2 :: rest, h =>
      cases h
      exact fun x hx => List.mem_cons_of_mem t hx

theorem evictOnce_last {ts ts2 : List ConversationTurn}
    (h : evictOnce ts = some ts2) : lastGrounding ts2 = lastGrounding ts := by
  unfold evictOnce at h
  cases hr : removeFirstNonGrounding ts with
  | some ts3 =>
    rw [hr] at h
    cases h
    unfold lastGrounding
    rw [rfng_filter hr]
  | none =>
    rw [hr] at h
    match ts, h with
    | t :: t2 :: rest, h =>
      cases h
      have hall := rfng_none hr
      have h1 : (t :: t2 :: rest).filter isGrounding = t :: t2 :: rest :=
        List.filter_eq_self.mpr hall
      have h2 : (t2 :: rest).filter isGrounding = t2 :: rest :=
        List.filter_eq_self.mpr (fun x hx => hall x (List.mem_cons_of_mem t hx))
      unfold lastGrounding
      rw [h1, h2, List.getLast?_cons_cons]

theorem evictOnce_stuck {ts : List ConversationTurn}
    (h : evictOnce ts = none) :
    ts = [] ∨ ∃ t, ts = [t] ∧ isGrounding t = true := by
  unfold evictOnce at h
  cases hr : removeFirstNonGrounding ts with
  | some ts3 => rw [hr] at h; cases h
  | none =>
    rw [hr] at h
    match ts, h with
    | [], _ => exact Or.inl rfl
    | [t], _ =>
      exact Or.inr ⟨t, rfl, rfng_none hr t (List.mem_singleton.mpr rfl)⟩

theorem overBudget_nil (cfg : StoreConfig) : ¬ overBudget cfg [] := by
  simp [overBudget, totalSize]

theorem evictFuel_mem (cfg : StoreConfig) :
    ∀ (fuel : Nat) (ts : List ConversationTurn), ∀ x ∈ evictFuel cfg fuel ts, x ∈ ts := by
  intro fuel
  induction fuel with
  | zero => intro ts x h; simpa [evictFuel] using h
  | succ n ih =>
    intro ts x h
    unfold evictFuel at h
    by_cases hb : overBudget cfg ts
    · rw [if_pos hb] at h
      cases he : evictOnce ts with
      | some ts2 =>
        rw [he] at h
        exact evictOnce_mem he x (ih ts2 x h)
      | none => rw [he] at h; exact h
    · rw [if_neg hb] at h; exact h

theorem evictFuel_last (cfg : StoreConfig) :
    ∀ (fuel : Nat) (ts : List ConversationTurn),
      lastGrounding (evictFuel cfg fuel ts) = lastGrounding ts := by
  intro fuel
  induction fuel with
  | zero => intro ts; simp [evictFuel]
  | succ n ih =>
    intro ts
    unfold evictFuel
    by_cases hb : overBudget cfg ts
    · rw [if_pos hb]
      cases he : evictOnce ts with
      | some ts2 => rw [ih ts2, evictOnce_last he]
      | none => rfl
    · rw [if_neg hb]

theorem evictFuel_post (cfg : StoreConfig) :
    ∀ (fuel : Nat) (ts : List ConversationTurn), ts.length ≤ fuel →
      ¬ overBudget cfg (evictFuel cfg fuel ts) ∨
      ∃ t, evictFuel cfg fuel ts = [t] ∧ isGrounding t = true := by
  intro fuel
  induction fuel with
  | zero =>
    intro ts hlen
    have : ts = [] := List.length_eq_zero.mp (Nat.le_zero.mp hlen)
    subst this
    exact Or.inl (by simpa [evictFuel] using overBudget_nil cfg)
  | succ n ih =>
    intro ts hlen
    unfold evictFuel
    by_cases hb : overBudget cfg ts
    · rw [if_pos hb]
      cases he : evictOnce ts with
      | some ts2 =>
        have hlt := evictOnce_length he
        exact ih ts2 (by omega)
      | none =>
        rcases evictOnce_stuck he with rfl | ⟨t, rfl, hg⟩
        · exact absurd hb (overBudget_nil cfg)
        · exact Or.inr ⟨t, rfl, hg⟩
    · rw [if_neg hb]
      exact Or.inl hb

theorem appendTurn_mem (cfg : StoreConfig) (ts : List ConversationTurn)
    (t : ConversationTurn) : ∀ x ∈ appendTurn cfg ts t, x ∈ ts ++ [t] :=
  evictFuel_mem cfg (ts ++ [t]).length (ts ++ [t])

theorem appendTurn_within (cfg : StoreConfig) (ts : List ConversationTurn)
    (t : ConversationTurn) (hmax : 1 ≤ cfg.maxTurns)
    (hsz : ∀ x ∈ ts ++ [t], turnSize x ≤ cfg.sizeBudget) :
    ¬ overBudget cfg (appendTurn cfg ts t) := by
  rcases evictFuel_post cfg (ts ++ [t]).length (ts ++ [t]) (Nat.le_refl _) with h | h
  · exact h
  · obtain ⟨g, hg, _⟩ := h
    have hmem : g ∈ ts ++ [t] := appendTurn_mem cfg ts t g (by rw [appendTurn, evict, hg]; simp)
    have hgsz := hsz g hmem
    unfold appendTurn evict
    rw [hg]
    simp only [overBudget, totalSize, List.length_cons, List.length_nil,
      List.map_cons, List.map_nil, List.sum_cons, List.sum_nil, Nat.add_zero]
    omega

theorem lastGrounding_append (xs ys : List ConversationTurn) :
    lastGrounding (xs ++ ys) = (lastGrounding ys).or (lastGrounding xs) := by
  unfold lastGrounding
  rw [List.filter_append, List.getLast?_append]

theorem lastGrounding_mem {ts : List ConversationTurn} {g : ConversationTurn}
    (h : lastGrounding ts = some g) : g ∈ ts := by
  unfold lastGrounding at h
  have hx : g ∈ (ts.filter isGrounding).getLast? := by rw [h]; rfl
  obtain ⟨hne, heq⟩ := List.mem_getLast?_eq_getLast hx
  rw [heq]
  exact List.mem_of_mem_filter (List.getLast_mem hne)

theorem storeFold_within (cfg : StoreConfig) (hmax : 1 ≤ cfg.maxTurns) :
    ∀ (turns start : List ConversationTurn),
      (∀ x ∈ start, turnSize x ≤ cfg.sizeBudget) →
      (∀ t ∈ turns, turnSize t ≤ cfg.sizeBudget) →
      ¬ overBudget cfg start →
      ¬ overBudget cfg (turns.foldl (appendTurn cfg) start) ∧
      ∀ x ∈ turns.foldl (appendTurn cfg) start, turnSize x ≤ cfg.sizeBudget := by
  intro turns
  induction turns with
  | nil => intro start hstart _ hok; exact ⟨hok, hstart⟩
  | cons t rest ih =>
    intro start hstart hturns hok
    have hall : ∀ x ∈ start ++ [t], turnSize x ≤ cfg.sizeBudget := by
      intro x hx
      rcases List.mem_append.mp hx with hx | hx
      · exact hstart x hx
      · exact (List.mem_singleton.mp hx) ▸ hturns t (List.mem_cons_self t rest)
    have hnext : ∀ x ∈ appendTurn cfg start t, turnSize x ≤ cfg.sizeBudget :=
      fun x hx => hall x (appendTurn_mem cfg start t x hx)
    have hnok : ¬ overBudget cfg (appendTurn cfg start t) :=
      appendTurn_within cfg start t hmax hall
    simpa using ih (appendTurn cfg start t) hnext
      (fun x hx => hturns x (List.mem_cons_of_mem t hx)) hnok

theorem storeFold_last (cfg : StoreConfig) :
    ∀ (turns start : List ConversationTurn),
      lastGrounding (turns.foldl (appendTurn cfg) start) =
        lastGrounding (start ++ turns) := by
  intro turns
  induction turns with
  | nil => intro start; simp
  | cons t rest ih =>
    intro start
    have h1 : lastGrounding (appendTurn cfg start t) = lastGrounding (start ++ [t]) :=
      evictFuel_last cfg (start ++ [t]).length (start ++ [t])
    calc lastGrounding (List.foldl (appendTurn cfg) (appendTurn cfg start t) rest)
        = lastGrounding (appendTurn cfg start t ++ rest) := ih _
      _ = (lastGrounding rest).or (lastGrounding (appendTurn cfg start t)) :=
          lastGrounding_append _ _
      _ = (lastGrounding rest).or (lastGrounding (start ++ [t])) := by rw [h1]
      _ = lastGrounding ((start ++ [t]) ++ rest) := (lastGrounding_append _ _).symm
      _ = lastGrounding (start ++ t :: rest) := by
          rw [List.append_assoc, List.singleton_append]

/-- C4: for every finite sequence of Append calls the Context Store's
stored turn count and content size never exceed the configured budget
(given a positive turn budget and each appended turn fitting the content
budget on its own), eviction removing oldest non-grounding turns first;
and the most recent system grounding turn of the appended sequence is
always retained and is still the most recent grounding turn of the
store. -/
theorem contextStore_budget (cfg : StoreConfig) (turns : List ConversationTurn)
    (hmax : 1 ≤ cfg.maxTurns)
    (hsz : ∀ t ∈ turns, turnSize t ≤ cfg.sizeBudget) :
    (turns.foldl (appendTurn cfg) []).length ≤ cfg.maxTurns ∧
    totalSize (turns.foldl (appendTurn cfg) []) ≤ cfg.sizeBudget ∧
    lastGrounding (turns.foldl (appendTurn cfg) []) = lastGrounding turns ∧
    ∀ g, lastGrounding turns = some g → g ∈ turns.foldl (appendTurn cfg) [] := by
  have hin := storeFold_within cfg hmax turns [] (by simp) hsz (overBudget_nil cfg)
  have hlast := storeFold_last cfg turns []
  rw [List.nil_append] at hlast
  have hnb := hin.1
  rw [overBudget, not_or, Nat.not_lt, Nat.not_lt] at hnb
  exact ⟨hnb.1, hnb.2, hlast, fun g hg => lastGrounding_mem (hlast.trans hg)⟩

/-- Witness for C4 at a concrete configuration and turn sequence holding a
grounding turn. -/
theorem contextStore_budget_witness :
    1 ≤ (StoreConfig.mk 2 10).maxTurns ∧
    (∀ t ∈ [ConversationTurn.mk .user "hola", ⟨.system, "estado"⟩, ⟨.user, "ya"⟩],
      turnSize t ≤ (StoreConfig.mk 2 10).sizeBudget) ∧
    (([ConversationTurn.mk .user "hola", ⟨.system, "estado"⟩, ⟨.user, "ya"⟩].foldl
        (appendTurn ⟨2, 10⟩) []).length ≤ 2 ∧
     totalSize ([ConversationTurn.mk .user "hola", ⟨.system, "estado"⟩, ⟨.user, "ya"⟩].foldl
        (appendTurn ⟨2, 10⟩) []) ≤ 10 ∧
     lastGrounding ([ConversationTurn.mk .user "hola", ⟨.system, "estado"⟩, ⟨.user, "ya"⟩].foldl
        (appendTurn ⟨2, 10⟩) []) =
       lastGrounding [ConversationTurn.mk .user "hola", ⟨.system, "estado"⟩, ⟨.user, "ya"⟩] ∧
     ∀ g, lastGrounding [ConversationTurn.mk .user "hola", ⟨.system, "estado"⟩, ⟨.user, "ya"⟩] =
        some g →
       g ∈ [ConversationTurn.mk .user "hola", ⟨.system, "estado"⟩, ⟨.user, "ya"⟩].foldl
        (appendTurn ⟨2, 10⟩) []) :=
  ⟨by decide, by decide,
   contextStore_budget ⟨2, 10⟩
     [⟨.user, "hola"⟩, ⟨.system, "estado"⟩, ⟨.user, "ya"⟩] (by decide) (by decide)⟩

/-- C2: for every Action in the legal action vocabulary of the active game,
`Decode (Encode a) = some a` — the decode of the encoded display string
recovers the action, and `Encode` is total on that vocabulary since it is a
function defined on all of `Action`. -/
theorem decode_encode_roundtrip : ∀ act : Action, Decode (Encode act) = some act := by
  intro act
  obtain ⟨u, d, l, r, a, b, st, se⟩ := act
  cases u <;> cases d <;> cases l <;> cases r <;>
    cases a <;> cases b <;> cases st <;> cases se <;> rfl

/-- C5: `Score` is deterministic — two runs on identical observation pairs
under the same reward configuration yield an identical RewardEvent, with
the same scalar reward and the same tagged event list. -/
theorem score_deterministic (cfg : RewardConfig) (prev curr prev2 curr2 : Observation)
    (hp : prev = prev2) (hc : curr = curr2) :
    Score cfg prev curr = Score cfg prev2 curr2 ∧
    (Score cfg prev curr).reward = (Score cfg prev2 curr2).reward ∧
    (Score cfg prev curr).events = (Score cfg prev2 curr2).events := by
  subst hp; subst hc; exact ⟨rfl, rfl, rfl⟩

/-- Witness for C5 at a concrete reward configuration and observation pair. -/
theorem score_deterministic_witness :
    Score ⟨1, -5, 100⟩ ⟨0, 3, false, false⟩ ⟨7, 2, false, false⟩ =
      Score ⟨1, -5, 100⟩ ⟨0, 3, false, false⟩ ⟨7, 2, false, false⟩ ∧
    (Score ⟨1, -5, 100⟩ ⟨0, 3, false, false⟩ ⟨7, 2, false, false⟩).reward =
      (Score ⟨1, -5, 100⟩ ⟨0, 3, false, false⟩ ⟨7, 2, false, false⟩).reward ∧
    (Score ⟨1, -5, 100⟩ ⟨0, 3, false, false⟩ ⟨7, 2, false, false⟩).events =
      (Score ⟨1, -5, 100⟩ ⟨0, 3, false, false⟩ ⟨7, 2, false, false⟩).events :=
  score_deterministic ⟨1, -5, 100⟩ ⟨0, 3, false, false⟩ ⟨7, 2, false, false⟩
    ⟨0, 3, false, false⟩ ⟨7, 2, false, false⟩ rfl rfl

/-- C6: rebinding the chat UI to a fresh session clears the conversation
history — after `updateSession id` the stored conversation is the empty
sequence and the active session id equals `id`, for every prior state. -/
theorem updateSession_clears (st : ChatState) (id : String) :
    (updateSession id st).conversation = [] ∧
    (updateSession id st).sessionId = some id :=
  ⟨rfl, rfl⟩

/-- C8: submitting the chat form with empty trimmed text or with no session
id set is a no-op — the state (conversation and rendered messages) is
unchanged and no HTTP request is issued. -/
theorem submitChat_noop (st : ChatState) (text : String) (outcome : ChatOutcome)
    (h : trimChars text = "" ∨ st.sessionId = none) :
    submitChat st text outcome = ⟨st, none⟩ := by
  by_cases htrim : trimChars text = ""
  · simp [submitChat, htrim]
  · rcases h with h | h
    · exact absurd h htrim
    · simp [submitChat, htrim, h]

/-- Witness for C8 at a concrete state with no bound session id. -/
theorem submitChat_noop_witness :
    (trimChars "hola" = "" ∨ (ChatState.mk [] none []).sessionId = none) ∧
    submitChat ⟨[], none, []⟩ "hola" (.success "ok") = ⟨⟨[], none, []⟩, none⟩ :=
  ⟨Or.inr rfl, submitChat_noop ⟨[], none, []⟩ "hola" (.success "ok") (Or.inr rfl)⟩

/-- C9: a chat submission with non-empty trimmed text and an active session
appends exactly the user turn then the assistant turn on success, appends
only the user turn on failure, and in both cases issues the request whose
message list is the prior conversation extended with that user turn — the
conversation is only ever extended at the end. -/
theorem submitChat_appends (st : ChatState) (text sid : String)
    (htext : trimChars text ≠ "") (hsid : st.sessionId = some sid) :
    (∀ reply,
      (submitChat st text (.success reply)).state.conversation =
        st.conversation ++ [⟨"user", trimChars text⟩, ⟨"assistant", reply⟩] ∧
      (submitChat st text (.success reply)).request =
        some (sid, st.conversation ++ [⟨"user", trimChars text⟩])) ∧
    (∀ errMsg,
      (submitChat st text (.failure errMsg)).state.conversation =
        st.conversation ++ [⟨"user", trimChars text⟩] ∧
      (submitChat st text (.failure errMsg)).request =
        some (sid, st.conversation ++ [⟨"user", trimChars text⟩])) := by
  refine ⟨fun reply => ?_, fun errMsg => ?_⟩ <;>
    simp [submitChat, htext, hsid]

/-- Witness for C9 at a concrete bound state and message text. -/
theorem submitChat_appends_witness :
    trimChars " hola " ≠ "" ∧
    (ChatState.mk [] (some "s1") []).sessionId = some "s1" ∧
    ((∀ reply,
      (submitChat ⟨[], some "s1", []⟩ " hola " (.success reply)).state.conversation =
        [] ++ [⟨"user", trimChars " hola "⟩, ⟨"assistant", reply⟩] ∧
      (submitChat ⟨[], some "s1", []⟩ " hola " (.success reply)).request =
        some ("s1", [] ++ [⟨"user", trimChars " hola "⟩])) ∧
    (∀ errMsg,
      (submitChat ⟨[], some "s1", []⟩ " hola " (.failure errMsg)).state.conversation =
        [] ++ [⟨"user", trimChars " hola "⟩] ∧
      (submitChat ⟨[], some "s1", []⟩ " hola " (.failure errMsg)).request =
        some ("s1", [] ++ [⟨"user", trimChars " hola "⟩]))) :=
  ⟨by decide, rfl,
   submitChat_appends ⟨[], some "s1", []⟩ " hola " "s1" (by decide) rfl⟩

/-- C1: in control mode coop-turn the acting actor is determined by
step-counter parity — an even step requires the human action (failing
`MissingHumanAction` without one) and acts with actor human, an odd step
acts with actor ai; and the spec scenario holds: after
`CreateSession("sf2", "coop-turn")`, the first (even) step with no human
action fails `MissingHumanAction`, the first step supplied with RIGHT
succeeds with actor human, and the second (odd) step with no human action
succeeds with actor ai. -/
theorem coopTurn_parity (cfg : AIConfig) (s : Session) (firstTry sndTry : Option String)
    (act : Action) (hmode : s.mode = .coopTurn) (hterm : s.terminated = false) :
    ((s.stepCount % 2 = 0 →
        stepSession cfg s none false firstTry sndTry = .error .MissingHumanAction ∧
        stepSession cfg s (some act) false firstTry sndTry =
          .ok (⟨act, .human, false, false⟩, { s with stepCount := s.stepCount + 1 })) ∧
     (s.stepCount % 2 = 1 →
        ∃ r, stepSession cfg s none false firstTry sndTry =
            .ok (r, { s with stepCount := s.stepCount + 1 }) ∧
          r.actor = .ai)) ∧
    (∃ s0, createSession ["sf2"] "sf2" .coopTurn = .ok s0 ∧
      stepSession cfg s0 none false firstTry sndTry = .error .MissingHumanAction ∧
      ∃ s1, stepSession cfg s0 (some rightAction) false firstTry sndTry =
          .ok (⟨rightAction, .human, false, false⟩, s1) ∧
        ∃ r2 s2, stepSession cfg s1 none false firstTry sndTry = .ok (r2, s2) ∧
          r2.actor = .ai ∧ s2.stepCount = 2) := by
  have base : ∀ (s2 : Session) (act2 : Action), s2.mode = .coopTurn → s2.terminated = false →
      ((s2.stepCount % 2 = 0 →
        stepSession cfg s2 none false firstTry sndTry = .error .MissingHumanAction ∧
        stepSession cfg s2 (some act2) false firstTry sndTry =
          .ok (⟨act2, .human, false, false⟩, { s2 with stepCount := s2.stepCount + 1 })) ∧
      (s2.stepCount % 2 = 1 →
        ∃ r, stepSession cfg s2 none false firstTry sndTry =
            .ok (r, { s2 with stepCount := s2.stepCount + 1 }) ∧
          r.actor = .ai)) := by
    intro s2 act2 hm ht
    constructor
    · intro hpar
      constructor
      · simp [stepSession, hm, ht, hpar]
      · simp [stepSession, hm, ht, hpar]
    · intro hpar
      have hne : (s2.stepCount % 2 == 0) = false := by simp [hpar]
      refine ⟨⟨(aiDecision cfg firstTry sndTry).1, .ai,
        (aiDecision cfg firstTry sndTry).2, false⟩, ?_, rfl⟩
      simp [stepSession, hm, ht, hne]
  refine ⟨base s act hmode hterm, ?_⟩
  refine ⟨⟨"sf2", .coopTurn, 0, false⟩, by simp [createSession], ?_⟩
  have h0 := base ⟨"sf2", .coopTurn, 0, false⟩ rightAction rfl rfl
  refine ⟨(h0.1 (by simp)).1, ?_⟩
  refine ⟨⟨"sf2", .coopTurn, 1, false⟩, (h0.1 (by simp)).2, ?_⟩
  have h1 := base ⟨"sf2", .coopTurn, 1, false⟩ rightAction rfl rfl
  obtain ⟨r, hr, hactor⟩ := h1.2 (by simp)
  exact ⟨r, _, hr, hactor, rfl⟩

/-- Witness for C1 at a concrete arbiter configuration, session and oracle
transcript. -/
theorem coopTurn_parity_witness :
    ((Session.mk "sf2" .coopTurn 0 false).mode = .coopTurn ∧
     (Session.mk "sf2" .coopTurn 0 false).terminated = false) ∧
    ((((Session.mk "sf2" .coopTurn 0 false).stepCount % 2 = 0 →
        stepSession ⟨emptyAction⟩ ⟨"sf2", .coopTurn, 0, false⟩ none false none none =
          .error .MissingHumanAction ∧
        stepSession ⟨emptyAction⟩ ⟨"sf2", .coopTurn, 0, false⟩ (some rightAction)
            false none none =
          .ok (⟨rightAction, .human, false, false⟩, ⟨"sf2", .coopTurn, 1, false⟩)) ∧
      ((Session.mk "sf2" .coopTurn 0 false).stepCount % 2 = 1 →
        ∃ r, stepSession ⟨emptyAction⟩ ⟨"sf2", .coopTurn, 0, false⟩ none false none none =
            .ok (r, ⟨"sf2", .coopTurn, 1, false⟩) ∧
          r.actor = .ai)) ∧
    (∃ s0, createSession ["sf2"] "sf2" .coopTurn = .ok s0 ∧
      stepSession ⟨emptyAction⟩ s0 none false none none = .error .MissingHumanAction ∧
      ∃ s1, stepSession ⟨emptyAction⟩ s0 (some rightAction) false none none =
          .ok (⟨rightAction, .human, false, false⟩, s1) ∧
        ∃ r2 s2, stepSession ⟨emptyAction⟩ s1 none false none none = .ok (r2, s2) ∧
          r2.actor = .ai ∧ s2.stepCount = 2)) :=
  ⟨⟨rfl, rfl⟩,
   coopTurn_parity ⟨emptyAction⟩ ⟨"sf2", .coopTurn, 0, false⟩ none none
     rightAction rfl rfl⟩

/-- C3: when a step consults the AI oracle and the oracle fails on both the
initial attempt and the retry, the step still completes successfully with
the configured default action, the result is tagged `ai_fallback = true`,
and the step counter advances by exactly one — an AI failure never aborts
a step. -/
theorem aiFallback_step (cfg : AIConfig) (s : Session) (humanAct : Option Action)
    (optOut : Bool) (hterm : s.terminated = false)
    (hcons : consultsAI s optOut = true) :
    ∃ r s2, stepSession cfg s humanAct optOut none none = .ok (r, s2) ∧
      r.aiFallback = true ∧ r.actionTaken = cfg.defaultAction ∧
      r.actor = .ai ∧ s2.stepCount = s.stepCount + 1 := by
  have hdec : aiDecision cfg none none = (cfg.defaultAction, true) := rfl
  cases hm : s.mode with
  | humanOnly => simp [consultsAI, hm] at hcons
  | aiOnly =>
    exact ⟨⟨cfg.defaultAction, .ai, true, false⟩, { s with stepCount := s.stepCount + 1 },
      by simp [stepSession, hm, hterm, hdec], rfl, rfl, rfl, rfl⟩
  | coopTurn =>
    have hcond : (s.stepCount % 2 == 0 && !optOut) = false := by
      simp [consultsAI, hm] at hcons
      rcases hcons with h | h <;> simp [h]
    exact ⟨⟨cfg.defaultAction, .ai, true, false⟩, { s with stepCount := s.stepCount + 1 },
      by simp [stepSession, hm, hterm, hcond, hdec], rfl, rfl, rfl, rfl⟩
  | coopBlend =>
    cases humanAct with
    | none =>
      exact ⟨⟨cfg.defaultAction, .ai, true, false⟩, { s with stepCount := s.stepCount + 1 },
        by simp [stepSession, hm, hterm, hdec], rfl, rfl, rfl, rfl⟩
    | some h =>
      by_cases hh : h = cfg.defaultAction
      · exact ⟨⟨cfg.defaultAction, .ai, true, false⟩, { s with stepCount := s.stepCount + 1 },
          by simp [stepSession, hm, hterm, hdec, hh], rfl, rfl, rfl, rfl⟩
      · exact ⟨⟨cfg.defaultAction, .ai, true, true⟩, { s with stepCount := s.stepCount + 1 },
          by simp [stepSession, hm, hterm, hdec, hh], rfl, rfl, rfl, rfl⟩

/-- Witness for C3 at a concrete ai-only session with a doubly failing
oracle. -/
theorem aiFallback_step_witness :
    (Session.mk "sf2" .aiOnly 4 false).terminated = false ∧
    consultsAI ⟨"sf2", .aiOnly, 4, false⟩ false = true ∧
    ∃ r s2, stepSession ⟨emptyAction⟩ ⟨"sf2", .aiOnly, 4, false⟩ none false none none =
        .ok (r, s2) ∧
      r.aiFallback = true ∧ r.actionTaken = (AIConfig.mk emptyAction).defaultAction ∧
      r.actor = .ai ∧ s2.stepCount = 4 + 1 :=
  ⟨rfl, rfl, aiFallback_step ⟨emptyAction⟩ ⟨"sf2", .aiOnly, 4, false⟩ none false rfl rfl⟩

/-- C10: the start button always sends mode "coop" to POST /api/sessions
whatever the AI toggle state is, and the toggle's checked state affects
only the `use_ai` field of subsequent step requests. -/
theorem startClick_mode_coop (st : GamePanelState) (gameId : String)
    (hgame : gameId ≠ "") :
    startClick st gameId = some ⟨gameId, "coop"⟩ ∧
    (∀ checked, startClick (aiToggleChange checked st) gameId =
      some ⟨gameId, "coop"⟩) ∧
    (∀ checked sid, (aiToggleChange checked st).sessionId = some sid →
      stepClick (aiToggleChange checked st) = some ⟨checked⟩) := by
  refine ⟨by simp [startClick, hgame], fun checked => by simp [startClick, hgame],
    fun checked sid hsid => ?_⟩
  simp [stepClick, aiToggleChange] at hsid ⊢
  rw [hsid]

/-- Witness for C10 at a concrete panel state and game id. -/
theorem startClick_mode_coop_witness :
    ("sf2" : String) ≠ "" ∧
    (startClick ⟨some "s1", false⟩ "sf2" = some ⟨"sf2", "coop"⟩ ∧
     (∀ checked, startClick (aiToggleChange checked ⟨some "s1", false⟩) "sf2" =
       some ⟨"sf2", "coop"⟩) ∧
     (∀ checked sid, (aiToggleChange checked ⟨some "s1", false⟩).sessionId = some sid →
       stepClick (aiToggleChange checked ⟨some "s1", false⟩) = some ⟨checked⟩)) :=
  ⟨by decide, startClick_mode_coop ⟨some "s1", false⟩ "sf2" (by decide)⟩

end IAboy
